import Mathlib

/-!
# Verification of the village generator (`src/Generating/VillageGen.cpp`)

A shallow embedding of the piece-assembly and placement engine of the
village generator, together with theorems settling the specification
claims about it.

Conventions of the embedding:
* C++ `int` values are modelled as `Int`; values that the code keeps
  non-negative (sizes, depths, bit-masked noise hashes) are modelled as `Nat`.
* Code of the repository that lives outside `VillageGen.cpp` (the noise
  hash, the BFS piece generator, prefab accessors, chunk helpers) is not
  part of the source tree given here; those parts are modelled from the
  specification and are marked `Modelled from the spec:` in their
  doc comments.
* `for` loops are embedded as structurally recursive functions over an
  explicit iteration bound, so that every definition is executable by
  the kernel.
-/

namespace VillageGen

/-! ## Block and face constants

Modelled from the spec: the paving material and the water-crossing
material are configuration identifiers; the concrete ids below are the
`E_BLOCK_GRAVEL` and `E_BLOCK_PLANKS` constants the source file names. -/

def E_BLOCK_GRAVEL : Nat := 13

def E_BLOCK_PLANKS : Nat := 5

/-- Chunk width in blocks (`cChunkDef::Width`). -/
def chunkWidth : Int := 16

/-- Connector facing directions used by the road synthesis
(`BLOCK_FACE_XM` / `BLOCK_FACE_XP` / `BLOCK_FACE_ZM` / `BLOCK_FACE_ZP`). -/
inductive BlockFace where
  | xm
  | xp
  | zm
  | zp
deriving DecidableEq, Repr

/-! ## Road-piece synthesis (`cVillagePiecePool::cVillagePiecePool`) -/

/-- A connector of a synthesized road piece, in piece-local coordinates:
`AddConnector(x, y, z, face, type)`. -/
structure RoadConnector where
  x : Nat
  y : Nat
  z : Nat
  face : BlockFace
  type : Int
deriving DecidableEq, Repr

/-- A synthesized road piece: the `cPrefab` built from a
`len × 1 × 3` block area filled with `E_BLOCK_GRAVEL`, together with its
connector list. -/
structure RoadPiece where
  sizeX : Nat
  sizeY : Nat
  sizeZ : Nat
  blockType : Nat
  defaultWeight : Nat
  connectors : List RoadConnector
deriving DecidableEq, Repr

/-- Embedding of the C++ loop `for (x = start; x < stop; x += step)` as a
structurally recursive function; `fuel` bounds the number of iterations
(the callers pass `fuel := stop`, which is enough whenever `step ≥ 1`). -/
def forLoopA (step stop : Nat) : Nat → Nat → List Nat
  | 0, _ => []
  | fuel + 1, x => if x < stop then x :: forLoopA step stop fuel (x + step) else []

/-- The index sequence of `for (x = start; x < stop; x += step)`. -/
def forLoop (start step stop : Nat) : List Nat :=
  forLoopA step stop stop start

/-- The road piece of length `len` synthesized by the pool constructor:
two type `-2` connectors at the far ends, type `2` connectors at
`x = 1, 13, 25, …` on both long edges (`z = 0` and `z = 2`), and type `1`
connectors at `x = 7, 19, …` on both long edges. -/
def mkRoadPiece (len : Nat) : RoadPiece :=
  { sizeX := len
    sizeY := 1
    sizeZ := 3
    blockType := E_BLOCK_GRAVEL
    defaultWeight := 100
    connectors :=
      [⟨0, 0, 1, .xm, -2⟩, ⟨len - 1, 0, 1, .xp, -2⟩]
        ++ (forLoop 1 12 len).flatMap (fun x => [⟨x, 0, 0, .zm, 2⟩, ⟨x, 0, 2, .zp, 2⟩])
        ++ (forLoop 7 12 len).flatMap (fun x => [⟨x, 0, 0, .zm, 1⟩, ⟨x, 0, 2, .zp, 1⟩]) }

/-- The road lengths generated by `for (len = 27; len < 60; len += 12)`. -/
def roadLens : List Nat := forLoop 27 12 60

/-- All road pieces added to every village piece pool at construction. -/
def villageRoads : List RoadPiece := roadLens.map mkRoadPiece

/-! ## The base pool's weight policy (`cVillagePiecePool::GetPieceWeight`) -/

/-- `cVillagePiecePool::GetPieceWeight`.  `placedDepth` and `placedSizeY`
are `a_PlacedPiece.GetDepth()` and `a_PlacedPiece.GetPiece().GetSize().y`;
`existingConnType` is `a_ExistingConnector.m_Type`; `prefabWeight` is the
value of the delegated call
`((const cPrefab &)a_NewPiece).GetPieceWeight(a_PlacedPiece, a_ExistingConnector)`
(modelled from the spec: the candidate's own ranked weight, computed
outside this file). -/
def villagePoolGetPieceWeight (placedDepth : Nat) (placedSizeY : Nat)
    (existingConnType : Int) (prefabWeight : Int) : Int :=
  if existingConnType = 2 ∧ placedDepth > 0 ∧ placedSizeY = 1 then 0
  else prefabWeight

/-! ## The per-village density gate (`cVillageGen::cVillage::GetPieceWeight`) -/

/-- `cVillageGen::cVillage::GetPieceWeight`.  `noise3` is modelled from the
spec: `cNoise::IntNoise3DInt`, a pure, seeded, non-negative integer hash of
the coordinates.  `cx, cy, cz` are the components of
`a_PlacedPiece.GetRotatedConnector(a_ExistingConnector).m_Pos`, the
existing connector's absolute world position (modelled from the spec).
`delegated` is the value of `m_Prefabs.GetPieceWeight(...)`. -/
def villageGetPieceWeight (noise3 : Int → Int → Int → Nat) (density : Int)
    (existingConnType : Int) (cx cy cz : Int) (delegated : Int) : Int :=
  if existingConnType = 1 then
    if ((noise3 cx cy cz / 7 % 100 : Nat) : Int) > density then 0 else delegated
  else delegated

/-! ## Placed pieces and the ground-snap cascade -/

/-- A placed piece (`cPlacedPiece`), modelled from the spec with the data
the ground-snap logic consumes: world coordinates, the rotated first
connector's offset from those coordinates, the prefab's
`ShouldMoveToGround` flag, and the parent back-reference as an index into
the owning structure's append-only piece list (the source compares
`GetParent()` against the pivot's address; distinct placed pieces are
distinct heap objects, so pointer equality is index equality). -/
structure VPiece where
  x : Int
  y : Int
  z : Int
  connOffX : Int
  connOffY : Int
  connOffZ : Int
  moveToGround : Bool
  parent : Option Nat
deriving DecidableEq, Repr

/-- `cVillage::PlacePieceOnGround`: query the terrain height under the
piece's first rotated connector and move the piece so that connector sits
one block above the surface
(`MoveToGroundBy(TerrainHeight - FirstConnector.m_Pos.y + 1)`).
`heightAt` is modelled from the spec: the terrain height generator
sampled at absolute x/z coordinates; `MoveToGroundBy` is modelled from
the spec as a vertical offset of the piece. -/
def placePieceOnGround (heightAt : Int → Int → Int) (p : VPiece) : VPiece :=
  { p with
    y := p.y + (heightAt (p.x + p.connOffX) (p.z + p.connOffZ) - (p.y + p.connOffY) + 1) }

/-- The loop body of `cVillage::MoveAllDescendants`, embedded with an
explicit iteration bound `fuel` (the loop scans `i` upward, so
`fuel := n` always suffices); `n` is the `num = a_PlacedPieces.size()`
snapshot taken before the loop.  A piece at index `i > pivot` whose
parent is the pivot and whose prefab does not itself move to ground is
shifted by `d` and then recursively treated as a pivot. -/
def madLoopA (n : Nat) (d : Int) : Nat → Nat → Nat → List VPiece → List VPiece
  | fuel, pivot, i, ps =>
    if i < n then
      match fuel with
      | 0 => ps
      | fuel + 1 =>
        match ps[i]? with
        | some p =>
          if p.parent = some pivot ∧ p.moveToGround = false then
            madLoopA n d fuel pivot (i + 1)
              (madLoopA n d fuel i (i + 1) (ps.set i { p with y := p.y + d }))
          else madLoopA n d fuel pivot (i + 1) ps
        | none => madLoopA n d fuel pivot (i + 1) ps
    else ps

/-- `cVillage::MoveAllDescendants(a_PlacedPieces, a_Pivot, a_HeightDifference)`. -/
def moveAllDescendants (ps : List VPiece) (pivot : Nat) (d : Int) : List VPiece :=
  madLoopA ps.length d ps.length pivot (pivot + 1) ps

/-- The piece-list post-processing done by the `cVillage` constructor
after `PlacePieces`: if the assembly is empty nothing happens; otherwise,
if the root piece should be moved to ground, it is placed on the ground
and the height difference is cascaded to its strictly connector-driven
descendants. -/
def villagePieces (heightAt : Int → Int → Int) (asm : List VPiece) : List VPiece :=
  match asm with
  | [] => []
  | p0 :: rest =>
    if p0.moveToGround then
      moveAllDescendants (placePieceOnGround heightAt p0 :: rest) 0
        ((placePieceOnGround heightAt p0).y - p0.y)
    else p0 :: rest

/-- The fields of a placed piece that the cascade's control flow reads:
the parent back-reference and the ground-anchoring flag. -/
def pieceKey (p : VPiece) : Option Nat × Bool :=
  (p.parent, p.moveToGround)

/-- One step of the cascade-reachability predicate (specification
vocabulary, not source code): `pk` is the key of the piece at index `k`;
`k` is a cascading descendant of `pivot` when it is non-anchored and its
parent is either `pivot` itself (with `k ≥ i`, the loop's scan start) or,
at a smaller index, itself a cascading descendant (`rec`). -/
def isDescStep (pivot i k : Nat) (pk : Option (Option Nat × Bool)) (rec : Nat → Bool) : Bool :=
  match pk with
  | some (some j, false) =>
    if j = pivot then decide (i ≤ k)
    else if j < k then rec j
    else false
  | _ => false

/-- Characterization predicate for the cascade (not itself source code):
`isDescFromA ps pivot i fuel k` holds when following parent links from
`k` reaches `pivot` through a chain of pieces that all have
`moveToGround = false`, each parent index strictly below its child, with
the chain's first link (the child of `pivot` on the chain) at index
`≥ i`.  `fuel ≥ k` makes the recursion total. -/
def isDescFromA (ps : List VPiece) (pivot i : Nat) : Nat → Nat → Bool
  | 0, k => isDescStep pivot i k (ps[k]?.map pieceKey) (fun _ => false)
  | fuel + 1, k => isDescStep pivot i k (ps[k]?.map pieceKey) (isDescFromA ps pivot i fuel)

/-- `k` is reachable from `pivot` by a chain of connector-only
(non-ground-anchored) children whose first link is at index `≥ i`. -/
def isDescFrom (ps : List VPiece) (pivot i k : Nat) : Bool :=
  isDescFromA ps pivot i k k

/-! ## Biomes, style pools and `cVillageGen::CreateStructure` -/

/-- The biomes the `CreateStructure` switch distinguishes.  The source
matches six named village-friendly biomes and sends every other biome of
the game's enum to the rejecting `default` branch; `biOcean`, `biRiver`
and `biExtremeHills` stand in for that default family here. -/
inductive Biome where
  | biDesert
  | biDesertM
  | biPlains
  | biSavanna
  | biSavannaM
  | biSunflowerPlains
  | biOcean
  | biRiver
  | biExtremeHills
deriving DecidableEq, Repr

/-- A biome is village-friendly when it is matched by a non-default case
of the `CreateStructure` switch. -/
def isVillageFriendly : Biome → Bool
  | .biDesert => true
  | .biDesertM => true
  | .biPlains => true
  | .biSavanna => true
  | .biSavannaM => true
  | .biSunflowerPlains => true
  | _ => false

/-- The five process-wide style pools
(`g_SandVillage … g_JapaneseVillage`), by name. -/
inductive VillagePool where
  | sandVillage
  | sandFlatRoofVillage
  | alchemistVillage
  | plainsVillage
  | japaneseVillage
deriving DecidableEq, Repr

/-- `g_DesertVillagePools`. -/
def g_DesertVillagePools : List VillagePool :=
  [.sandVillage, .sandFlatRoofVillage, .alchemistVillage]

/-- `g_PlainsVillagePools`. -/
def g_PlainsVillagePools : List VillagePool :=
  [.plainsVillage, .japaneseVillage]

/-- The biome-scanning loop of `CreateStructure`: each friendly biome
overwrites `VillagePrefabs` with its family's chosen pool; a
village-unfriendly biome returns immediately with no structure (`none`).
The accumulator is the current (nullable) `VillagePrefabs` pointer. -/
def chooseVillagePrefabs (desertV plainsV : VillagePool) :
    List Biome → Option VillagePool → Option (Option VillagePool)
  | [], acc => some acc
  | b :: rest, acc =>
    match b with
    | .biDesert => chooseVillagePrefabs desertV plainsV rest (some desertV)
    | .biDesertM => chooseVillagePrefabs desertV plainsV rest (some desertV)
    | .biPlains => chooseVillagePrefabs desertV plainsV rest (some plainsV)
    | .biSavanna => chooseVillagePrefabs desertV plainsV rest (some plainsV)
    | .biSavannaM => chooseVillagePrefabs desertV plainsV rest (some plainsV)
    | .biSunflowerPlains => chooseVillagePrefabs desertV plainsV rest (some plainsV)
    | _ => none

/-- The pool a single biome would select (specification vocabulary for
the amended C3): the desert choice for desert-family biomes, the plains
choice for plains-family biomes, nothing for unfriendly biomes. -/
def biomeFamilyPool (desertV plainsV : VillagePool) : Biome → Option VillagePool
  | .biDesert => some desertV
  | .biDesertM => some desertV
  | .biPlains => some plainsV
  | .biSavanna => some plainsV
  | .biSavannaM => some plainsV
  | .biSunflowerPlains => some plainsV
  | _ => none

/-- The `cVillageGen` configuration (constructor arguments it keeps).
`noise2` is modelled from the spec: `cNoise::IntNoise2DInt` of the
generator's `m_Noise(seed + 1000)`, a pure non-negative integer hash of
the two coordinates. -/
structure VillageGenCfg where
  seed : Int
  maxDepth : Nat
  maxSize : Int
  minDensity : Int
  maxDensity : Int
  noise2 : Int → Int → Nat

/-- Everything the seeded BFS piece generator reads when the `cVillage`
constructor calls `PlacePieces(OriginX, 0, OriginZ, MaxRoadDepth + 1, …)`:
the seed, the origin, the recursion bound, and the village state the
pool callbacks consult (density and the chosen style pool). -/
structure AssembleInput where
  seed : Int
  originX : Int
  originZ : Int
  maxDepth : Nat
  density : Int
  prefabs : VillagePool
deriving DecidableEq, Repr

/-- The `cVillage` structure produced by `CreateStructure`. -/
structure Village where
  gridX : Int
  gridZ : Int
  originX : Int
  originZ : Int
  seed : Int
  maxSize : Int
  density : Int
  prefabs : VillagePool
  roadBlock : Nat
  waterRoadBlock : Nat
  pieces : List VPiece
deriving DecidableEq, Repr

/-- `int rnd = m_Noise.IntNoise2DInt(a_OriginX, a_OriginZ) / 11;` -/
def villageRnd (cfg : VillageGenCfg) (originX originZ : Int) : Nat :=
  cfg.noise2 originX originZ / 11

/-- `g_PlainsVillagePools[rnd % ARRAYCOUNT(g_PlainsVillagePools)]` -/
def pickedPlainsPool (cfg : VillageGenCfg) (originX originZ : Int) : VillagePool :=
  g_PlainsVillagePools.getD
    (villageRnd cfg originX originZ % g_PlainsVillagePools.length) .plainsVillage

/-- `g_DesertVillagePools[rnd % ARRAYCOUNT(g_DesertVillagePools)]` -/
def pickedDesertPool (cfg : VillageGenCfg) (originX originZ : Int) : VillagePool :=
  g_DesertVillagePools.getD
    (villageRnd cfg originX originZ % g_DesertVillagePools.length) .sandVillage

/-- `cVillageGen::CreateStructure`.  `assemble` is modelled from the
spec: the external constraint-directed BFS tree-growth engine, a
deterministic function of the seed, origin, depth bound and pool policy
it is given.  `heightAt` is the terrain height generator and `biomes`
the biome classifier's sample for the chunk around the origin (both
external collaborators).  Returns `none` for a rejected location. -/
def createStructure (cfg : VillageGenCfg) (assemble : AssembleInput → List VPiece)
    (heightAt : Int → Int → Int) (biomes : List Biome)
    (gridX gridZ originX originZ : Int) : Option Village :=
  match chooseVillagePrefabs (pickedDesertPool cfg originX originZ)
      (pickedPlainsPool cfg originX originZ) biomes none with
  | none => none
  | some prefabsOpt =>
    let density : Int :=
      if cfg.maxDensity > cfg.minDensity then
        cfg.minDensity + (villageRnd cfg originX originZ : Int) % (cfg.maxDensity - cfg.minDensity)
      else cfg.minDensity
    match prefabsOpt with
    | none => none
    | some prefabs =>
      some
        { gridX := gridX
          gridZ := gridZ
          originX := originX
          originZ := originZ
          seed := cfg.seed
          maxSize := cfg.maxSize
          density := density
          prefabs := prefabs
          roadBlock := E_BLOCK_GRAVEL
          waterRoadBlock := E_BLOCK_PLANKS
          pieces := villagePieces heightAt
            (assemble ⟨cfg.seed, originX, originZ, cfg.maxDepth + 1, density, prefabs⟩) }

/-! ## Road drawing (`cVillage::DrawRoad`) -/

/-- One block mutation issued to the chunk (`cChunkDesc::SetBlockType`),
in chunk-local coordinates. -/
structure BlockWrite where
  x : Int
  y : Int
  z : Int
  block : Nat
deriving DecidableEq, Repr

/-- The integer range `[lo, hi]` as a list (embedding of an ascending
`for` loop over `Int`). -/
def intRange (lo hi : Int) : List Int :=
  (List.range (hi + 1 - lo).toNat).map (fun (n : Nat) => lo + (n : Int))

/-- `std::max(RoadCoords.p1.x - a_Chunk.GetChunkX() * cChunkDef::Width, 0)`
after `RoadCoords.Sort()`. -/
def roadClipMinX (p1x p2x chunkX : Int) : Int :=
  max (min p1x p2x - chunkX * chunkWidth) 0

/-- `std::min(RoadCoords.p2.x - …, cChunkDef::Width - 1)`. -/
def roadClipMaxX (p1x p2x chunkX : Int) : Int :=
  min (max p1x p2x - chunkX * chunkWidth) (chunkWidth - 1)

/-- Clipped lower z bound, as for x. -/
def roadClipMinZ (p1z p2z chunkZ : Int) : Int :=
  max (min p1z p2z - chunkZ * chunkWidth) 0

/-- Clipped upper z bound, as for x. -/
def roadClipMaxZ (p1z p2z chunkZ : Int) : Int :=
  min (max p1z p2z - chunkZ * chunkWidth) (chunkWidth - 1)

/-- `cVillage::DrawRoad`, as the list of block writes it issues.
`p1…/p2…` are the road's hit box corners (`Sort()` is the `min`/`max` in
the clip bounds); `heightAt` is `cChunkDef::GetHeight` on the chunk's
heightmap (chunk-local coordinates); `blockAt` reads the chunk's
pre-existing terrain (each column is visited once, so no read observes an
earlier write); `isBlockWater` is modelled from the spec: the
liquid-surface test the paving substitution keys on. -/
def drawRoadWrites (p1x p1z p2x p2z chunkX chunkZ : Int)
    (heightAt : Int → Int → Int) (blockAt : Int → Int → Int → Nat)
    (isBlockWater : Nat → Bool) (roadBlock waterRoadBlock : Nat) : List BlockWrite :=
  (intRange (roadClipMinZ p1z p2z chunkZ) (roadClipMaxZ p1z p2z chunkZ)).flatMap fun z =>
    (intRange (roadClipMinX p1x p2x chunkX) (roadClipMaxX p1x p2x chunkX)).map fun x =>
      if isBlockWater (blockAt x (heightAt x z) z) then
        ⟨x, heightAt x z, z, waterRoadBlock⟩
      else
        ⟨x, heightAt x z, z, roadBlock⟩

/-! ## Concrete sample inputs used by witnesses and counterexamples -/

/-- A BFS engine that assembles nothing. -/
def asmEmpty : AssembleInput → List VPiece := fun _ => []

/-- A flat world: terrain height 0 everywhere. -/
def htZero : Int → Int → Int := fun _ _ => 0

/-- A sample configuration: seed 0, depth 2, size 40, densities 10–60,
constant hash 77 (so `rnd = 77 / 11 = 7`). -/
def cfgDemo : VillageGenCfg :=
  { seed := 0, maxDepth := 2, maxSize := 40, minDensity := 10, maxDensity := 60,
    noise2 := fun _ _ => 77 }

/-- A 256-biome sample mixing one desert-family biome with 255
plains-family biomes — every sampled biome village-friendly. -/
def biomesMixed : List Biome := Biome.biDesert :: List.replicate 255 Biome.biPlains

/-- A uniform 256-biome plains sample. -/
def biomesAllPlains : List Biome := List.replicate 256 Biome.biPlains

/-- A uniform 256-biome ocean (village-unfriendly) sample. -/
def biomesAllOcean : List Biome := List.replicate 256 Biome.biOcean

/-- A two-biome sample whose last entry is desert-family. -/
def biomesPD : List Biome := [Biome.biPlains, Biome.biDesert]

/-- The village `createStructure cfgDemo asmEmpty htZero biomesAllPlains 0 0 0 0`
evaluates to: rnd 7 picks the japanese pool (7 % 2 = 1) and density
10 + 7 % 50 = 17; the empty assembly leaves an empty piece list. -/
def vDemo : Village :=
  { gridX := 0, gridZ := 0, originX := 0, originZ := 0, seed := 0, maxSize := 40,
    density := 17, prefabs := .japaneseVillage, roadBlock := E_BLOCK_GRAVEL,
    waterRoadBlock := E_BLOCK_PLANKS, pieces := [] }

/-- A flat chunk heightmap: surface height 64 everywhere. -/
def htFlat : Int → Int → Int := fun _ _ => 64

/-- Sample terrain blocks: block id 9 (a liquid) in the column `x = 3`,
block id 1 elsewhere. -/
def blockDemo : Int → Int → Int → Nat := fun x _ _ => if x = 3 then 9 else 1

/-- Sample liquid test: block id 9 is the liquid. -/
def isWaterDemo : Nat → Bool := fun b => b = 9

/-- A flat world at height 70 for the ground-snap scenario. -/
def ht4 : Int → Int → Int := fun _ _ => 70

/-- Ground-snap scenario: a ground-anchored root (well) at `y = 64` whose
first connector is at its own coordinates. -/
def root4 : VPiece := ⟨0, 64, 0, 0, 0, 0, true, none⟩

/-- Ground-snap scenario: a connector-only child of the root. -/
def house4 : VPiece := ⟨5, 64, 0, 0, 0, 0, false, some 0⟩

/-- Ground-snap scenario: a ground-anchored child of the root (moves by
its own ground rule, so the cascade leaves it alone). -/
def anchored4 : VPiece := ⟨9, 64, 0, 0, 0, 0, true, some 0⟩

/-- Ground-snap scenario: a connector-only child hanging under the
anchored piece — the broken chain leaves it unmoved too. -/
def sub4 : VPiece := ⟨12, 64, 0, 0, 0, 0, false, some 2⟩

end VillageGen

namespace VillageGen

/-! ## Claim C1 -/

/-- Claim C1: for every placed piece of height 1 (a road) at generation
depth greater than 0, the base pool's weight function returns 0 for every
candidate offered at one of its type-2 connectors, and attachments
queried at type-1 connectors are unaffected by this rule at any depth
(the delegated prefab weight is returned unchanged). -/
theorem villagePool_branch_limiting (depth : Nat) (w : Int)
    (hdepth : depth > 0) :
    (∀ prefabWeight : Int,
      villagePoolGetPieceWeight depth 1 2 prefabWeight = 0) ∧
    (∀ sizeY : Nat, ∀ prefabWeight : Int,
      villagePoolGetPieceWeight depth sizeY 1 prefabWeight = prefabWeight) ∧
    villagePoolGetPieceWeight depth 1 2 w = 0 := by
  refine ⟨fun prefabWeight => ?_, fun sizeY prefabWeight => ?_, ?_⟩
  · simp [villagePoolGetPieceWeight, hdepth]
  · simp [villagePoolGetPieceWeight]
  · simp [villagePoolGetPieceWeight, hdepth]

/-- Witness for C1: the branch-limiting rule evaluated at depth 1. -/
theorem villagePool_branch_limiting_wit :
    villagePoolGetPieceWeight 1 1 2 100 = 0 ∧
    villagePoolGetPieceWeight 1 1 1 100 = 100 := by
  have h := villagePool_branch_limiting 1 100 (by decide)
  exact ⟨h.1 100, h.2.1 1 100⟩

/-! ## Claim C2 -/

/-- Claim C2: at a type-1 existing connector the village's weight function
derives a deterministic value from the connector's absolute position via
the seeded noise hash, reduced into `[0,100)`; it returns 0 whenever that
value exceeds the density, otherwise it returns the underlying pool's
weight.  At every other connector type it delegates unconditionally. -/
theorem village_density_gate (noise3 : Int → Int → Int → Nat) (density : Int)
    (cx cy cz : Int) (delegated : Int) :
    noise3 cx cy cz / 7 % 100 < 100 ∧
    (((noise3 cx cy cz / 7 % 100 : Nat) : Int) > density →
      villageGetPieceWeight noise3 density 1 cx cy cz delegated = 0) ∧
    (((noise3 cx cy cz / 7 % 100 : Nat) : Int) ≤ density →
      villageGetPieceWeight noise3 density 1 cx cy cz delegated = delegated) ∧
    (∀ t : Int, t ≠ 1 →
      villageGetPieceWeight noise3 density t cx cy cz delegated = delegated) := by
  refine ⟨Nat.mod_lt _ (by norm_num), fun h => ?_, fun h => ?_, fun t ht => ?_⟩
  · unfold villageGetPieceWeight
    rw [if_pos rfl, if_pos h]
  · unfold villageGetPieceWeight
    rw [if_pos rfl, if_neg (not_lt.mpr h)]
  · unfold villageGetPieceWeight
    rw [if_neg ht]

/-- Witness for C2: with the constant hash 350 the reduced value is 50,
so a candidate at a type-1 connector of a density-40 village is rejected,
while a type-2 connector delegates unconditionally. -/
theorem village_density_gate_wit :
    villageGetPieceWeight (fun _ _ _ => 350) 40 1 3 4 5 7 = 0 ∧
    villageGetPieceWeight (fun _ _ _ => 350) 40 2 3 4 5 7 = 7 := by
  have h := village_density_gate (fun _ _ _ => 350) 40 3 4 5 7
  exact ⟨h.2.1 (by norm_num), h.2.2.2 2 (by norm_num)⟩

/-! ## Claim C5 -/

/-- Claim C5: every synthesized road piece has height 1, width 3 and
length in {27, 39, 51}; it carries exactly two type `-2` connectors, at
`x = 0` and `x = L-1`, its type-2 connectors sit exactly at
`x = 1, 13, 25, … (< L)` on both long edges, its type-1 connectors sit
exactly at `x = 7, 19, … (< L)` on both long edges, and no other road
length is generated. -/
theorem road_pieces_shape (p : RoadPiece) (hp : p ∈ villageRoads) :
    p.sizeY = 1 ∧ p.sizeZ = 3 ∧ (p.sizeX = 27 ∨ p.sizeX = 39 ∨ p.sizeX = 51) ∧
    (p.connectors.filter (fun c => c.type = -2)).map (fun c => c.x)
      = [0, p.sizeX - 1] ∧
    (∀ c ∈ p.connectors, c.type = 2 →
      c.x % 12 = 1 ∧ c.x < p.sizeX ∧ (c.z = 0 ∨ c.z = 2)) ∧
    (∀ c ∈ p.connectors, c.type = 1 →
      c.x % 12 = 7 ∧ c.x < p.sizeX ∧ (c.z = 0 ∨ c.z = 2)) ∧
    (∀ x : Nat, x < p.sizeX → x % 12 = 1 →
      (⟨x, 0, 0, .zm, 2⟩ : RoadConnector) ∈ p.connectors ∧
      (⟨x, 0, 2, .zp, 2⟩ : RoadConnector) ∈ p.connectors) ∧
    (∀ x : Nat, x < p.sizeX → x % 12 = 7 →
      (⟨x, 0, 0, .zm, 1⟩ : RoadConnector) ∈ p.connectors ∧
      (⟨x, 0, 2, .zp, 1⟩ : RoadConnector) ∈ p.connectors) ∧
    roadLens = [27, 39, 51] := by
  have hlens : roadLens = [27, 39, 51] := by decide
  have hv : villageRoads = [mkRoadPiece 27, mkRoadPiece 39, mkRoadPiece 51] := by
    rw [villageRoads, hlens]; rfl
  rw [hv] at hp
  simp only [List.mem_cons, List.not_mem_nil, or_false] at hp
  rcases hp with rfl | rfl | rfl <;> exact ⟨by decide, by decide, by decide,
    by decide, by decide, by decide, by decide, by decide, hlens⟩

/-- Witness for C5: the length-27 road piece is a generated road piece. -/
theorem road_pieces_shape_wit :
    (mkRoadPiece 27).sizeY = 1 ∧ (mkRoadPiece 27).sizeZ = 3 ∧
    ((mkRoadPiece 27).connectors.filter (fun c => c.type = -2)).map
      (fun c => c.x) = [0, 26] := by
  have h := road_pieces_shape (mkRoadPiece 27) (by decide)
  exact ⟨h.1, h.2.1, h.2.2.2.1⟩

/-! ## Lemmas about the biome-scanning loop -/

/-- The biome loop returns the null rejection exactly when some scanned
biome is village-unfriendly. -/
theorem chooseVillagePrefabs_none_iff (dv pv : VillagePool) :
    ∀ (biomes : List Biome) (acc : Option VillagePool),
      chooseVillagePrefabs dv pv biomes acc = none ↔
        ∃ b ∈ biomes, isVillageFriendly b = false := by
  intro biomes
  induction biomes with
  | nil => intro acc; simp [chooseVillagePrefabs]
  | cons hd tl ih =>
    intro acc
    cases hd <;> simp [chooseVillagePrefabs, isVillageFriendly, ih]

/-- When every scanned biome is friendly, the loop ends with the pool
selected by the **last** biome of the sample (each iteration overwrites
the accumulator). -/
theorem chooseVillagePrefabs_all_friendly (dv pv : VillagePool) :
    ∀ (biomes : List Biome) (acc : Option VillagePool) (b : Biome),
      (∀ x ∈ biomes, isVillageFriendly x = true) → biomes.getLast? = some b →
      chooseVillagePrefabs dv pv biomes acc = some (biomeFamilyPool dv pv b) := by
  intro biomes
  induction biomes with
  | nil => intro acc b _ hlast; simp at hlast
  | cons hd tl ih =>
    intro acc b hfr hlast
    have hhd : isVillageFriendly hd = true := hfr hd (List.mem_cons_self hd tl)
    cases tl with
    | nil =>
      have hb : hd = b := by simpa using hlast
      subst hb
      cases hd with
      | biDesert => rfl
      | biDesertM => rfl
      | biPlains => rfl
      | biSavanna => rfl
      | biSavannaM => rfl
      | biSunflowerPlains => rfl
      | biOcean => simp [isVillageFriendly] at hhd
      | biRiver => simp [isVillageFriendly] at hhd
      | biExtremeHills => simp [isVillageFriendly] at hhd
    | cons hd2 tl2 =>
      have hlast' : (hd2 :: tl2).getLast? = some b := by
        rwa [List.getLast?_cons_cons] at hlast
      have hfr' : ∀ x ∈ hd2 :: tl2, isVillageFriendly x = true := fun x hx =>
        hfr x (List.mem_cons_of_mem hd hx)
      cases hd with
      | biDesert => exact ih (some dv) b hfr' hlast'
      | biDesertM => exact ih (some dv) b hfr' hlast'
      | biPlains => exact ih (some pv) b hfr' hlast'
      | biSavanna => exact ih (some pv) b hfr' hlast'
      | biSavannaM => exact ih (some pv) b hfr' hlast'
      | biSunflowerPlains => exact ih (some pv) b hfr' hlast'
      | biOcean => simp [isVillageFriendly] at hhd
      | biRiver => simp [isVillageFriendly] at hhd
      | biExtremeHills => simp [isVillageFriendly] at hhd

/-- A friendly biome always selects a pool. -/
theorem biomeFamilyPool_of_friendly (dv pv : VillagePool) (b : Biome)
    (hb : isVillageFriendly b = true) :
    ∃ pool, biomeFamilyPool dv pv b = some pool := by
  cases b <;> simp [isVillageFriendly] at hb <;> simp [biomeFamilyPool]

/-! ## Claim C3 (corrected) -/

set_option maxRecDepth 10000 in
/-- Counterexample to C3 as stated: a 256-biome sample containing both a
desert-family and a plains-family biome, all of them village-friendly,
does **not** make `CreateStructure` reject the location — a structure is
produced. -/
theorem mixed_families_not_rejected_cex :
    Biome.biDesert ∈ biomesMixed ∧ Biome.biPlains ∈ biomesMixed ∧
    (∀ b ∈ biomesMixed, isVillageFriendly b = true) ∧
    createStructure cfgDemo asmEmpty htZero biomesMixed 0 0 0 0 ≠ none := by
  decide

/-- Amended C3: when every sampled biome is village-friendly, conflicting
style families across the sample do **not** reject the location;
`CreateStructure` produces a structure whose style pool is the one
selected by the last sampled biome's family (the scan overwrites the
choice biome by biome). -/
theorem mixed_families_last_biome_wins (cfg : VillageGenCfg)
    (assemble : AssembleInput → List VPiece) (heightAt : Int → Int → Int)
    (biomes : List Biome) (gX gZ oX oZ : Int) (b : Biome)
    (hfr : ∀ x ∈ biomes, isVillageFriendly x = true)
    (hlast : biomes.getLast? = some b) :
    ∃ v, createStructure cfg assemble heightAt biomes gX gZ oX oZ = some v ∧
      biomeFamilyPool (pickedDesertPool cfg oX oZ) (pickedPlainsPool cfg oX oZ) b
        = some v.prefabs := by
  have hb : isVillageFriendly b = true := by
    have hmem : b ∈ biomes := List.mem_of_mem_getLast? (Option.mem_def.mpr hlast)
    exact hfr b hmem
  obtain ⟨pool, hpool⟩ :=
    biomeFamilyPool_of_friendly (pickedDesertPool cfg oX oZ) (pickedPlainsPool cfg oX oZ) b hb
  have hch := chooseVillagePrefabs_all_friendly (pickedDesertPool cfg oX oZ)
    (pickedPlainsPool cfg oX oZ) biomes none b hfr hlast
  rw [hpool] at hch
  have hcs : ∃ v, createStructure cfg assemble heightAt biomes gX gZ oX oZ = some v ∧
      v.prefabs = pool := by
    unfold createStructure
    rw [hch]
    exact ⟨_, rfl, rfl⟩
  obtain ⟨v, hv, hvp⟩ := hcs
  exact ⟨v, hv, by rw [hpool, hvp]⟩

set_option maxRecDepth 10000 in
/-- Witness for the amended C3: a plains-then-desert sample yields a
structure whose pool is the desert family's choice for rnd 7
(index 7 % 3 = 1, the flat-roof sand pool). -/
theorem mixed_families_last_biome_wins_wit :
    (createStructure cfgDemo asmEmpty htZero biomesPD 0 0 0 0).map Village.prefabs
      = some VillagePool.sandFlatRoofVillage := by
  obtain ⟨v, hv, hp⟩ := mixed_families_last_biome_wins cfgDemo asmEmpty htZero
    biomesPD 0 0 0 0 Biome.biDesert (by decide) (by decide)
  have h2 : biomeFamilyPool (pickedDesertPool cfgDemo 0 0) (pickedPlainsPool cfgDemo 0 0)
      Biome.biDesert = some VillagePool.sandFlatRoofVillage := by decide
  rw [hv, Option.map_some']
  rw [Option.some_inj.mp (h2.symm.trans hp)]

/-! ## Claim C6 (corrected) -/

set_option maxRecDepth 10000 in
/-- Counterexample to C6 as stated: with every sampled biome friendly and
a piece assembly that yields the empty piece set, `CreateStructure` does
**not** return none — it returns a structure with an empty piece list. -/
theorem empty_assembly_still_some_cex :
    (∀ b ∈ biomesAllPlains, isVillageFriendly b = true) ∧
    (createStructure cfgDemo asmEmpty htZero biomesAllPlains 0 0 0 0).map Village.pieces
      = some [] ∧
    createStructure cfgDemo asmEmpty htZero biomesAllPlains 0 0 0 0 ≠ none := by
  decide

/-- Amended C6: for a full 256-entry biome sample, `CreateStructure`
returns none **exactly** when some sampled biome is village-unfriendly;
an empty assembly result still yields a structure (with an empty piece
list), which contributes nothing when drawn. -/
theorem createStructure_none_iff (cfg : VillageGenCfg)
    (assemble : AssembleInput → List VPiece) (heightAt : Int → Int → Int)
    (biomes : List Biome) (gX gZ oX oZ : Int)
    (hlen : biomes.length = 256) :
    (createStructure cfg assemble heightAt biomes gX gZ oX oZ = none ↔
      ∃ b ∈ biomes, isVillageFriendly b = false) := by
  constructor
  · intro h
    by_contra hex
    push_neg at hex
    have hfr : ∀ x ∈ biomes, isVillageFriendly x = true := by
      intro x hx
      have := hex x hx
      simpa using this
    have hne : biomes ≠ [] := by
      intro he
      rw [he] at hlen
      simp at hlen
    obtain ⟨b, hb⟩ :=
      Option.ne_none_iff_exists'.mp (fun hn => hne (List.getLast?_eq_none_iff.mp hn))
    obtain ⟨v, hv, _⟩ := mixed_families_last_biome_wins cfg assemble heightAt
      biomes gX gZ oX oZ b hfr hb
    rw [hv] at h
    exact Option.noConfusion h
  · intro hex
    have hch := (chooseVillagePrefabs_none_iff (pickedDesertPool cfg oX oZ)
      (pickedPlainsPool cfg oX oZ) biomes none).mpr hex
    unfold createStructure
    rw [hch]

set_option maxRecDepth 10000 in
/-- Witness for the amended C6: an all-ocean sample is rejected. -/
theorem createStructure_none_iff_wit :
    createStructure cfgDemo asmEmpty htZero biomesAllOcean 0 0 0 0 = none := by
  exact (createStructure_none_iff cfgDemo asmEmpty htZero biomesAllOcean 0 0 0 0
    (by decide)).mpr ⟨Biome.biOcean, by decide, by decide⟩

/-! ## Claim C8 -/

/-- Claim C8: for every accepted origin the structure's density is
`minDensity + rnd % (maxDensity − minDensity)` when
`maxDensity > minDensity`, and exactly `minDensity` otherwise
(`minDensity ≥ maxDensity` is not a fault). -/
theorem createStructure_density (cfg : VillageGenCfg)
    (assemble : AssembleInput → List VPiece) (heightAt : Int → Int → Int)
    (biomes : List Biome) (gX gZ oX oZ : Int) (v : Village)
    (h : createStructure cfg assemble heightAt biomes gX gZ oX oZ = some v) :
    (cfg.maxDensity > cfg.minDensity →
      v.density = cfg.minDensity +
        (villageRnd cfg oX oZ : Int) % (cfg.maxDensity - cfg.minDensity)) ∧
    (cfg.maxDensity ≤ cfg.minDensity → v.density = cfg.minDensity) := by
  unfold createStructure at h
  cases hc : chooseVillagePrefabs (pickedDesertPool cfg oX oZ)
      (pickedPlainsPool cfg oX oZ) biomes none with
  | none => rw [hc] at h; exact absurd h (by simp)
  | some prefabsOpt =>
    rw [hc] at h
    cases prefabsOpt with
    | none => simp at h
    | some pool =>
      simp only [Option.some.injEq] at h
      constructor
      · intro hlt
        rw [← h]
        simp only [if_pos hlt]
      · intro hle
        rw [← h]
        simp only [if_neg (not_lt.mpr hle)]

set_option maxRecDepth 10000 in
/-- Witness for C8: `cfgDemo` has densities 10–60 and hash 77, so the
accepted all-plains origin gets density `10 + (77/11) % 50 = 17`. -/
theorem createStructure_density_wit : vDemo.density = 17 := by
  have h := createStructure_density cfgDemo asmEmpty htZero biomesAllPlains
    0 0 0 0 vDemo (by decide)
  have h10 : cfgDemo.maxDensity > cfgDemo.minDensity := by decide
  rw [h.1 h10]
  decide

/-! ## Claim C9 -/

/-- Claim C9: `CreateStructure` is deterministic — two calls with the
same configuration, collaborators and coordinates produce the same
result: identical piece composition, density and style choice.  In this
embedding all inputs (including the seeded noise hashes and the BFS
engine) are pure functions, mirroring the code's freedom from shared
mutable random state. -/
theorem createStructure_deterministic (cfg : VillageGenCfg)
    (assemble : AssembleInput → List VPiece) (heightAt : Int → Int → Int)
    (biomes : List Biome) (gX gZ oX oZ : Int) (v₁ v₂ : Village)
    (h₁ : createStructure cfg assemble heightAt biomes gX gZ oX oZ = some v₁)
    (h₂ : createStructure cfg assemble heightAt biomes gX gZ oX oZ = some v₂) :
    v₁ = v₂ ∧ v₁.pieces = v₂.pieces ∧ v₁.density = v₂.density ∧
      v₁.prefabs = v₂.prefabs := by
  have hv : v₁ = v₂ := Option.some_inj.mp (h₁.symm.trans h₂)
  exact ⟨hv, by rw [hv], by rw [hv], by rw [hv]⟩

set_option maxRecDepth 10000 in
/-- Witness for C9: two evaluations of the sample call agree. -/
theorem createStructure_deterministic_wit :
    vDemo = vDemo ∧ vDemo.pieces = vDemo.pieces := by
  have h := createStructure_deterministic cfgDemo asmEmpty htZero biomesAllPlains
    0 0 0 0 vDemo vDemo (by decide) (by decide)
  exact ⟨h.1, h.2.1⟩

/-! ## Road drawing: claims C7 and C10 -/

/-- Membership in an ascending integer range. -/
theorem mem_intRange {x lo hi : Int} : x ∈ intRange lo hi ↔ lo ≤ x ∧ x ≤ hi := by
  simp only [intRange, List.mem_map, List.mem_range]
  constructor
  · rintro ⟨n, hn, rfl⟩
    omega
  · intro h
    exact ⟨(x - lo).toNat, by omega, by omega⟩

/-- An empty ascending integer range is the empty list. -/
theorem intRange_eq_nil {lo hi : Int} (h : hi < lo) : intRange lo hi = [] := by
  have : (hi + 1 - lo).toNat = 0 := by omega
  simp [intRange, this]

/-- Claim C7: every block write a road drawing issues sits at the
column's surface height, and it writes the water-crossing material
exactly when the pre-existing surface block of that column is a liquid
(otherwise the default paving material); moreover every column of the
clipped footprint receives precisely such a write. -/
theorem drawRoad_water_crossing (p1x p1z p2x p2z chunkX chunkZ : Int)
    (heightAt : Int → Int → Int) (blockAt : Int → Int → Int → Nat)
    (isBlockWater : Nat → Bool) (roadBlock waterRoadBlock : Nat)
    (hne : roadBlock ≠ waterRoadBlock) :
    (∀ w ∈ drawRoadWrites p1x p1z p2x p2z chunkX chunkZ heightAt blockAt
        isBlockWater roadBlock waterRoadBlock,
      w.y = heightAt w.x w.z ∧
      (w.block = waterRoadBlock ↔ isBlockWater (blockAt w.x (heightAt w.x w.z) w.z) = true) ∧
      (w.block = roadBlock ↔ isBlockWater (blockAt w.x (heightAt w.x w.z) w.z) = false)) ∧
    (∀ x z : Int, roadClipMinX p1x p2x chunkX ≤ x → x ≤ roadClipMaxX p1x p2x chunkX →
      roadClipMinZ p1z p2z chunkZ ≤ z → z ≤ roadClipMaxZ p1z p2z chunkZ →
      (if isBlockWater (blockAt x (heightAt x z) z) then
        (⟨x, heightAt x z, z, waterRoadBlock⟩ : BlockWrite)
      else ⟨x, heightAt x z, z, roadBlock⟩) ∈
        drawRoadWrites p1x p1z p2x p2z chunkX chunkZ heightAt blockAt
          isBlockWater roadBlock waterRoadBlock) := by
  constructor
  · intro w hw
    simp only [drawRoadWrites, List.mem_flatMap, List.mem_map] at hw
    obtain ⟨z, hz, x, hx, hwx⟩ := hw
    by_cases hb : isBlockWater (blockAt x (heightAt x z) z) = true
    · rw [if_pos hb] at hwx
      subst hwx
      exact ⟨rfl, by simp [hb], by simp [hb, Ne.symm hne]⟩
    · rw [if_neg hb] at hwx
      subst hwx
      exact ⟨rfl, by simp [hne, Bool.not_eq_true _ ▸ hb], by simp [hb]⟩
  · intro x z hx1 hx2 hz1 hz2
    simp only [drawRoadWrites, List.mem_flatMap, List.mem_map]
    exact ⟨z, mem_intRange.mpr ⟨hz1, hz2⟩, x, mem_intRange.mpr ⟨hx1, hx2⟩, rfl⟩

/-- Witness for C7: in the sample terrain the liquid column `x = 3` gets
the water-crossing block 5 while the dry column `x = 4` gets the paving
block 13. -/
theorem drawRoad_water_crossing_wit :
    (⟨3, 64, 0, 5⟩ : BlockWrite) ∈
      drawRoadWrites 0 0 30 2 0 0 htFlat blockDemo isWaterDemo 13 5 ∧
    (⟨4, 64, 0, 13⟩ : BlockWrite) ∈
      drawRoadWrites 0 0 30 2 0 0 htFlat blockDemo isWaterDemo 13 5 := by
  have h := drawRoad_water_crossing 0 0 30 2 0 0 htFlat blockDemo isWaterDemo 13 5
    (by decide)
  exact ⟨h.2 3 0 (by decide) (by decide) (by decide) (by decide),
    h.2 4 0 (by decide) (by decide) (by decide) (by decide)⟩

/-- Claim C10: road drawing only writes at chunk-local coordinates in
`[0, chunkWidth − 1]`, and when the clipped footprint is empty no block
is written at all. -/
theorem drawRoad_clipped_to_chunk (p1x p1z p2x p2z chunkX chunkZ : Int)
    (heightAt : Int → Int → Int) (blockAt : Int → Int → Int → Nat)
    (isBlockWater : Nat → Bool) (roadBlock waterRoadBlock : Nat) :
    (∀ w ∈ drawRoadWrites p1x p1z p2x p2z chunkX chunkZ heightAt blockAt
        isBlockWater roadBlock waterRoadBlock,
      0 ≤ w.x ∧ w.x ≤ chunkWidth - 1 ∧ 0 ≤ w.z ∧ w.z ≤ chunkWidth - 1) ∧
    ((roadClipMaxX p1x p2x chunkX < roadClipMinX p1x p2x chunkX ∨
      roadClipMaxZ p1z p2z chunkZ < roadClipMinZ p1z p2z chunkZ) →
      drawRoadWrites p1x p1z p2x p2z chunkX chunkZ heightAt blockAt
        isBlockWater roadBlock waterRoadBlock = []) := by
  constructor
  · intro w hw
    simp only [drawRoadWrites, List.mem_flatMap, List.mem_map] at hw
    obtain ⟨z, hz, x, hx, hwx⟩ := hw
    rw [mem_intRange] at hz hx
    have hwx' : w.x = x ∧ w.z = z := by
      by_cases hb : isBlockWater (blockAt x (heightAt x z) z) = true
      · rw [if_pos hb] at hwx
        subst hwx
        exact ⟨rfl, rfl⟩
      · rw [if_neg hb] at hwx
        subst hwx
        exact ⟨rfl, rfl⟩
    rw [hwx'.1, hwx'.2]
    revert hx hz
    unfold roadClipMinX roadClipMaxX roadClipMinZ roadClipMaxZ chunkWidth
    intro hx hz
    omega
  · rintro (hx | hz)
    · have hX : intRange (roadClipMinX p1x p2x chunkX) (roadClipMaxX p1x p2x chunkX) = [] :=
        intRange_eq_nil hx
      simp [drawRoadWrites, hX]
    · have hZ : intRange (roadClipMinZ p1z p2z chunkZ) (roadClipMaxZ p1z p2z chunkZ) = [] :=
        intRange_eq_nil hz
      simp [drawRoadWrites, hZ]

/-! ## Lemmas for the ground-snap cascade (claim C4) -/

/-- `isDescStep` only consults `rec` at indices below `k`. -/
theorem isDescStep_congr (pivot i k : Nat) (pk : Option (Option Nat × Bool))
    (rec1 rec2 : Nat → Bool) (h : ∀ j, j < k → rec1 j = rec2 j) :
    isDescStep pivot i k pk rec1 = isDescStep pivot i k pk rec2 := by
  unfold isDescStep
  cases pk with
  | none => rfl
  | some q =>
    obtain ⟨par, mg⟩ := q
    cases par with
    | none => rfl
    | some j =>
      cases mg with
      | true => rfl
      | false =>
        by_cases hj : j = pivot
        · simp [hj]
        · by_cases hjk : j < k
          · simp [hj, hjk, h j hjk]
          · simp [hj, hjk]

/-- If one cascade step accepts `k` and `rec` only accepts indices `≥ i`,
then `k ≥ i`. -/
theorem isDescStep_le (pivot i k : Nat) (pk : Option (Option Nat × Bool))
    (rec : Nat → Bool) (hrec : ∀ j, rec j = true → i ≤ j)
    (h : isDescStep pivot i k pk rec = true) : i ≤ k := by
  unfold isDescStep at h
  cases pk with
  | none => exact absurd h (by simp)
  | some q =>
    obtain ⟨par, mg⟩ := q
    cases par with
    | none => exact absurd h (by simp)
    | some j =>
      cases mg with
      | true => exact absurd h (by simp)
      | false =>
        replace h : (if j = pivot then decide (i ≤ k)
            else if j < k then rec j else false) = true := h
        by_cases hj : j = pivot
        · rw [if_pos hj] at h
          exact of_decide_eq_true h
        · rw [if_neg hj] at h
          by_cases hjk : j < k
          · rw [if_pos hjk] at h
            exact Nat.le_of_lt (Nat.lt_of_le_of_lt (hrec j h) hjk)
          · rw [if_neg hjk] at h
            exact absurd h (by simp)

/-- Every cascading descendant with first link `≥ i` sits at index `≥ i`. -/
theorem isDescFromA_le (ps : List VPiece) (pivot i : Nat) :
    ∀ fuel k, isDescFromA ps pivot i fuel k = true → i ≤ k := by
  intro fuel
  induction fuel with
  | zero =>
    intro k h
    exact isDescStep_le pivot i k _ _ (fun j hj => absurd hj (by simp)) h
  | succ f ih =>
    intro k h
    exact isDescStep_le pivot i k _ _ (fun j hj => ih j hj) h

/-- The fuel argument of `isDescFromA` is irrelevant once it is `≥ k`. -/
theorem isDescFromA_fuel (ps : List VPiece) (pivot i : Nat) :
    ∀ fuel1 fuel2 k, k ≤ fuel1 → k ≤ fuel2 →
      isDescFromA ps pivot i fuel1 k = isDescFromA ps pivot i fuel2 k := by
  intro fuel1
  induction fuel1 with
  | zero =>
    intro fuel2 k h1 h2
    have hk : k = 0 := Nat.le_zero.mp h1
    subst hk
    cases fuel2 with
    | zero => rfl
    | succ f2 =>
      exact isDescStep_congr pivot i 0 _ _ _ (fun j hj => absurd hj (Nat.not_lt_zero j))
  | succ f1 ih =>
    intro fuel2 k h1 h2
    cases fuel2 with
    | zero =>
      have hk : k = 0 := Nat.le_zero.mp h2
      subst hk
      exact isDescStep_congr pivot i 0 _ _ _ (fun j hj => absurd hj (Nat.not_lt_zero j))
    | succ f2 =>
      exact isDescStep_congr pivot i k _ _ _
        (fun j hj => ih f2 j (by omega) (by omega))

/-- The cascade predicate only reads parent links and anchor flags, so
lists agreeing on those agree on the predicate. -/
theorem isDescFromA_congr (ps1 ps2 : List VPiece) (pivot i : Nat)
    (hag : ∀ m : Nat, ps1[m]?.map pieceKey = ps2[m]?.map pieceKey) :
    ∀ fuel k, isDescFromA ps1 pivot i fuel k = isDescFromA ps2 pivot i fuel k := by
  intro fuel
  induction fuel with
  | zero =>
    intro k
    simp only [isDescFromA, hag k]
  | succ f ih =>
    intro k
    simp only [isDescFromA, hag k]
    exact isDescStep_congr pivot i k _ _ _ (fun j _ => ih j)

/-- `isDescFrom` under key-preserving list changes. -/
theorem isDescFrom_congr (ps1 ps2 : List VPiece) (pivot i : Nat)
    (hag : ∀ m : Nat, ps1[m]?.map pieceKey = ps2[m]?.map pieceKey) (k : Nat) :
    isDescFrom ps1 pivot i k = isDescFrom ps2 pivot i k :=
  isDescFromA_congr ps1 ps2 pivot i hag k k

/-- A direct non-anchored child of the pivot at index `i` is itself a
cascading descendant with first link `≥ i`, at every fuel. -/
theorem isDescFromA_self (ps : List VPiece) (p : VPiece) (pivot i : Nat)
    (hp : ps[i]? = some p) (hpar : p.parent = some pivot)
    (hmg : p.moveToGround = false) :
    ∀ fuel, isDescFromA ps pivot i fuel i = true := by
  intro fuel
  cases fuel with
  | zero => simp [isDescFromA, isDescStep, hp, pieceKey, hpar, hmg]
  | succ f => simp [isDescFromA, isDescStep, hp, pieceKey, hpar, hmg]

/-- `madLoopA` preserves the length of the piece list. -/
theorem madLoopA_length (n : Nat) (d : Int) :
    ∀ fuel pivot i ps, (madLoopA n d fuel pivot i ps).length = ps.length := by
  intro fuel
  induction fuel with
  | zero =>
    intro pivot i ps
    rw [madLoopA]
    split <;> rfl
  | succ f ih =>
    intro pivot i ps
    rw [madLoopA]
    by_cases hi : i < n
    · rw [if_pos hi]
      cases hpi : ps[i]? with
      | none => exact ih pivot (i + 1) ps
      | some p =>
        dsimp only
        by_cases hc : p.parent = some pivot ∧ p.moveToGround = false
        · rw [if_pos hc, ih, ih]
          exact List.length_set ps i _
        · rw [if_neg hc]
          exact ih pivot (i + 1) ps
    · rw [if_neg hi]

/-- Destructuring a successful cascade step: the piece exists, is
non-anchored, and its parent is either the pivot (with `k` past the scan
start) or a smaller cascading index. -/
theorem isDescStep_true_elim (a b k : Nat) (key : Option (Option Nat × Bool))
    (rec : Nat → Bool) (h : isDescStep a b k key rec = true) :
    ∃ j, key = some (some j, false) ∧
      ((j = a ∧ b ≤ k) ∨ (j ≠ a ∧ j < k ∧ rec j = true)) := by
  unfold isDescStep at h
  cases key with
  | none => exact absurd h (by simp)
  | some q =>
    obtain ⟨par, mg⟩ := q
    cases par with
    | none => exact absurd h (by simp)
    | some j =>
      cases mg with
      | true => exact absurd h (by simp)
      | false =>
        replace h : (if j = a then decide (b ≤ k)
            else if j < k then rec j else false) = true := h
        refine ⟨j, rfl, ?_⟩
        by_cases hj : j = a
        · rw [if_pos hj] at h
          exact Or.inl ⟨hj, of_decide_eq_true h⟩
        · rw [if_neg hj] at h
          by_cases hjk : j < k
          · rw [if_pos hjk] at h
            exact Or.inr ⟨hj, hjk, h⟩
          · rw [if_neg hjk] at h
            exact absurd h (by simp)

/-- A cascade chain rooted strictly above the pivot and one rooted at the
pivot cannot both reach the same index: chains follow the unique parent
links.  (`pivot < i`; the first chain starts at `i`.) -/
theorem isDescFromA_disjoint (ps : List VPiece) (pivot i : Nat) (hpi : pivot < i) :
    ∀ f g k, isDescFromA ps i (i + 1) f k = true →
      isDescFromA ps pivot (i + 1) g k = true → False := by
  intro f
  induction f with
  | zero =>
    intro g k h1 h2
    replace h1 : isDescStep i (i + 1) k (ps[k]?.map pieceKey) (fun _ => false) = true := h1
    obtain ⟨j, hkey, hbr1⟩ := isDescStep_true_elim _ _ _ _ _ h1
    rcases hbr1 with ⟨hji, hik⟩ | ⟨-, -, hfalse⟩
    · cases g with
      | zero =>
        replace h2 : isDescStep pivot (i + 1) k (ps[k]?.map pieceKey)
            (fun _ => false) = true := h2
        obtain ⟨j2, hkey2, hbr2⟩ := isDescStep_true_elim _ _ _ _ _ h2
        have hjj : j = j2 := by simpa using hkey.symm.trans hkey2
        rcases hbr2 with ⟨hj2p, -⟩ | ⟨-, -, hf2⟩
        · omega
        · exact absurd hf2 (by simp)
      | succ g2 =>
        replace h2 : isDescStep pivot (i + 1) k (ps[k]?.map pieceKey)
            (isDescFromA ps pivot (i + 1) g2) = true := h2
        obtain ⟨j2, hkey2, hbr2⟩ := isDescStep_true_elim _ _ _ _ _ h2
        have hjj : j = j2 := by simpa using hkey.symm.trans hkey2
        rcases hbr2 with ⟨hj2p, -⟩ | ⟨-, -, hrec2⟩
        · omega
        · have := isDescFromA_le ps pivot (i + 1) g2 j2 hrec2
          omega
    · exact absurd hfalse (by simp)
  | succ f ih =>
    intro g k h1 h2
    replace h1 : isDescStep i (i + 1) k (ps[k]?.map pieceKey)
        (isDescFromA ps i (i + 1) f) = true := h1
    obtain ⟨j, hkey, hbr1⟩ := isDescStep_true_elim _ _ _ _ _ h1
    cases g with
    | zero =>
      replace h2 : isDescStep pivot (i + 1) k (ps[k]?.map pieceKey)
          (fun _ => false) = true := h2
      obtain ⟨j2, hkey2, hbr2⟩ := isDescStep_true_elim _ _ _ _ _ h2
      have hjj : j = j2 := by simpa using hkey.symm.trans hkey2
      rcases hbr2 with ⟨hj2p, -⟩ | ⟨-, -, hf2⟩
      · rcases hbr1 with ⟨hji, -⟩ | ⟨-, -, hrec1⟩
        · omega
        · have := isDescFromA_le ps i (i + 1) f j hrec1
          omega
      · exact absurd hf2 (by simp)
    | succ g2 =>
      replace h2 : isDescStep pivot (i + 1) k (ps[k]?.map pieceKey)
          (isDescFromA ps pivot (i + 1) g2) = true := h2
      obtain ⟨j2, hkey2, hbr2⟩ := isDescStep_true_elim _ _ _ _ _ h2
      have hjj : j = j2 := by simpa using hkey.symm.trans hkey2
      rcases hbr1 with ⟨hji, -⟩ | ⟨hjni, hjk, hrec1⟩
      · rcases hbr2 with ⟨hj2p, -⟩ | ⟨-, -, hrec2⟩
        · omega
        · have := isDescFromA_le ps pivot (i + 1) g2 j2 hrec2
          omega
      · rcases hbr2 with ⟨hj2p, -⟩ | ⟨-, -, hrec2⟩
        · have := isDescFromA_le ps i (i + 1) f j hrec1
          omega
        · rw [← hjj] at hrec2
          exact ih g2 j hrec1 hrec2

/-- At the scan bottom (`k = 0`) no cascade predicate with scan start
`≥ 1` holds. -/
theorem isDescStep_zero (a b : Nat) (hb : 1 ≤ b)
    (key : Option (Option Nat × Bool)) (rec : Nat → Bool) :
    isDescStep a b 0 key rec = false := by
  cases hs : isDescStep a b 0 key rec
  · rfl
  · obtain ⟨j, -, hbr⟩ := isDescStep_true_elim a b 0 key rec hs
    rcases hbr with ⟨-, hb0⟩ | ⟨-, hj0, -⟩
    · omega
    · omega

/-- When the piece at the scan index `i` fails the loop condition, the
scan start can advance past it without changing the cascade predicate. -/
theorem isDescFromA_skip (ps : List VPiece) (p : VPiece) (pivot i : Nat)
    (hp : ps[i]? = some p)
    (hc : ¬(p.parent = some pivot ∧ p.moveToGround = false)) :
    ∀ fuel k, isDescFromA ps pivot i fuel k = isDescFromA ps pivot (i + 1) fuel k := by
  have hstep : ∀ k (rec : Nat → Bool),
      isDescStep pivot i k (ps[k]?.map pieceKey) rec =
        isDescStep pivot (i + 1) k (ps[k]?.map pieceKey) rec := by
    intro k rec
    cases hq : ps[k]? with
    | none => rfl
    | some q =>
      cases hqp : q.parent with
      | none => simp [isDescStep, pieceKey, hqp]
      | some j =>
        cases hqm : q.moveToGround with
        | true => simp [isDescStep, pieceKey, hqp, hqm]
        | false =>
          simp only [Option.map_some', pieceKey, hqp, hqm, isDescStep]
          by_cases hj : j = pivot
          · rw [if_pos hj, if_pos hj]
            have hki : k ≠ i := by
              intro he
              subst he
              have hpq : p = q := Option.some.inj (hp.symm.trans hq)
              subst hpq
              rw [hqp] at hc
              rw [hqm] at hc
              exact hc ⟨by rw [hj], rfl⟩
            have : (i ≤ k) ↔ (i + 1 ≤ k) := by omega
            simp [decide_eq_decide.mpr this]
          · rw [if_neg hj, if_neg hj]
  intro fuel
  induction fuel with
  | zero =>
    intro k
    simp only [isDescFromA]
    exact hstep k _
  | succ f ih =>
    intro k
    simp only [isDescFromA]
    rw [hstep k _]
    exact isDescStep_congr pivot (i + 1) k _ _ _ (fun j _ => ih j)

/-- Decomposition of the cascade predicate when the piece at the scan
index `i` passes the loop condition: a chain with first link `≥ i`
either ends at `i` itself, or runs through `i` (first link `≥ i + 1`
from the new pivot `i`), or avoids `i` (first link `≥ i + 1` from the
old pivot). -/
theorem isDescFromA_decomp (ps : List VPiece) (p : VPiece) (pivot i : Nat)
    (hp : ps[i]? = some p) (hpar : p.parent = some pivot)
    (hmg : p.moveToGround = false) (hpi : pivot < i) :
    ∀ fuel k, k ≤ fuel →
      isDescFromA ps pivot i fuel k =
        (decide (k = i) || isDescFromA ps i (i + 1) fuel k
          || isDescFromA ps pivot (i + 1) fuel k) := by
  intro fuel
  induction fuel with
  | zero =>
    intro k hk
    have hk0 : k = 0 := Nat.le_zero.mp hk
    subst hk0
    have hki : (0 : Nat) ≠ i := by omega
    simp only [isDescFromA]
    rw [isDescStep_zero pivot i (by omega) _ _,
      isDescStep_zero i (i + 1) (by omega) _ _,
      isDescStep_zero pivot (i + 1) (by omega) _ _]
    simp [hki]
  | succ f ih =>
    intro k hk
    simp only [isDescFromA]
    cases hq : ps[k]? with
    | none =>
      have hki : k ≠ i := by
        intro he
        subst he
        rw [hp] at hq
        exact Option.noConfusion hq
      simp [isDescStep, hki]
    | some q =>
      cases hqp : q.parent with
      | none =>
        have hki : k ≠ i := by
          intro he
          subst he
          have hpq : p = q := Option.some.inj (hp.symm.trans hq)
          subst hpq
          rw [hpar] at hqp
          exact Option.noConfusion hqp
        simp [isDescStep, pieceKey, hqp, hki]
      | some j =>
        cases hqm : q.moveToGround with
        | true =>
          have hki : k ≠ i := by
            intro he
            subst he
            have hpq : p = q := Option.some.inj (hp.symm.trans hq)
            subst hpq
            rw [hmg] at hqm
            exact Bool.noConfusion hqm
          simp [isDescStep, pieceKey, hqp, hqm, hki]
        | false =>
          simp only [Option.map_some', pieceKey, hqp, hqm, isDescStep]
          by_cases hj : j = pivot
          · have hjni : j ≠ i := by omega
            rw [if_pos hj, if_neg hjni, if_pos hj]
            have ht2 : (if j < k then isDescFromA ps i (i + 1) f j else false) = false := by
              split
              · cases hb : isDescFromA ps i (i + 1) f j
                · rfl
                · exact absurd (isDescFromA_le ps i (i + 1) f j hb) (by omega)
              · rfl
            rw [ht2]
            by_cases hik : i ≤ k
            · by_cases hki2 : k = i
              · simp [hik, hki2]
              · have h1 : i + 1 ≤ k := by omega
                simp [hik, hki2, h1]
            · have h1 : ¬ k = i := by omega
              have h2 : ¬ i + 1 ≤ k := by omega
              simp [hik, h1, h2]
          · by_cases hji : j = i
            · subst hji
              have hki : k ≠ j := by
                intro he
                subst he
                have hpq : p = q := Option.some.inj (hp.symm.trans hq)
                subst hpq
                rw [hpar] at hqp
                exact hj (Option.some.inj hqp).symm
              rw [if_neg hj, if_pos rfl, if_neg hj]
              have hself : isDescFromA ps pivot j f j = true :=
                isDescFromA_self ps p pivot j hp hpar hmg f
              have ht3 : (if j < k then isDescFromA ps pivot (j + 1) f j else false) = false := by
                split
                · cases hb : isDescFromA ps pivot (j + 1) f j
                  · rfl
                  · exact absurd (isDescFromA_le ps pivot (j + 1) f j hb) (by omega)
                · rfl
              rw [ht3]
              by_cases hjk : j < k
              · rw [if_pos hjk, hself]
                have h1 : j + 1 ≤ k := hjk
                simp [hki, h1]
              · rw [if_neg hjk]
                have h1 : ¬ j + 1 ≤ k := by omega
                simp [hki, h1]
            · have hki : k ≠ i := by
                intro he
                subst he
                have hpq : p = q := Option.some.inj (hp.symm.trans hq)
                subst hpq
                rw [hpar] at hqp
                exact hj (Option.some.inj hqp).symm
              rw [if_neg hj, if_neg hji, if_neg hj]
              by_cases hjk : j < k
              · rw [if_pos hjk, if_pos hjk, if_pos hjk, ih j (by omega)]
                simp [hji, hki]
              · rw [if_neg hjk, if_neg hjk, if_neg hjk]
                simp [hki]

/-- `madLoopA` with no fuel leaves the list unchanged. -/
theorem madLoopA_zero (n : Nat) (d : Int) (pivot i : Nat) (ps : List VPiece) :
    madLoopA n d 0 pivot i ps = ps := by
  rw [madLoopA]
  split <;> rfl

/-- `madLoopA` past the snapshot size leaves the list unchanged. -/
theorem madLoopA_ge (n : Nat) (d : Int) (fuel pivot i : Nat) (ps : List VPiece)
    (hi : ¬ i < n) : madLoopA n d fuel pivot i ps = ps := by
  cases fuel with
  | zero => exact madLoopA_zero n d pivot i ps
  | succ f => rw [madLoopA, if_neg hi]

/-- Loop step on a missing index. -/
theorem madLoopA_succ_none (n : Nat) (d : Int) (f pivot i : Nat) (ps : List VPiece)
    (hi : i < n) (hp : ps[i]? = none) :
    madLoopA n d (f + 1) pivot i ps = madLoopA n d f pivot (i + 1) ps := by
  rw [madLoopA, if_pos hi, hp]

/-- Loop step on a piece that fails the cascade condition. -/
theorem madLoopA_succ_skip (n : Nat) (d : Int) (f pivot i : Nat) (ps : List VPiece)
    (p : VPiece) (hi : i < n) (hp : ps[i]? = some p)
    (hc : ¬(p.parent = some pivot ∧ p.moveToGround = false)) :
    madLoopA n d (f + 1) pivot i ps = madLoopA n d f pivot (i + 1) ps := by
  rw [madLoopA, if_pos hi, hp]
  dsimp only
  rw [if_neg hc]

/-- Loop step on a direct connector-only dependant of the pivot: shift it
and recurse into it before continuing the scan. -/
theorem madLoopA_succ_move (n : Nat) (d : Int) (f pivot i : Nat) (ps : List VPiece)
    (p : VPiece) (hi : i < n) (hp : ps[i]? = some p)
    (hc : p.parent = some pivot ∧ p.moveToGround = false) :
    madLoopA n d (f + 1) pivot i ps =
      madLoopA n d f pivot (i + 1)
        (madLoopA n d f i (i + 1) (ps.set i { p with y := p.y + d })) := by
  rw [madLoopA, if_pos hi, hp]
  dsimp only
  rw [if_pos hc]

/-- The exact effect of the `MoveAllDescendants` loop: a piece is shifted
by `d` exactly when it is a cascading descendant of the pivot whose chain
enters at or past the current scan index, and nothing else about the list
changes. -/
theorem madLoopA_spec (n : Nat) (d : Int) :
    ∀ fuel pivot i ps, ps.length = n → n ≤ fuel + i → pivot < i →
      ∀ k : Nat, (madLoopA n d fuel pivot i ps)[k]? =
        ps[k]?.map (fun q => if isDescFrom ps pivot i k then { q with y := q.y + d } else q) := by
  intro fuel
  induction fuel with
  | zero =>
    intro pivot i ps hlen hni hpi k
    rw [madLoopA_zero]
    cases hk : ps[k]? with
    | none => rfl
    | some q =>
      have hkl : k < ps.length := (List.getElem?_eq_some_iff.mp hk).1
      have hfalse : isDescFrom ps pivot i k = false := by
        cases hb : isDescFrom ps pivot i k
        · rfl
        · exact absurd (isDescFromA_le ps pivot i k k hb) (by omega)
      simp [hfalse]
  | succ f ih =>
    intro pivot i ps hlen hni hpi k
    by_cases hi : i < n
    · have hips : i < ps.length := by omega
      obtain ⟨p, hp⟩ : ∃ p, ps[i]? = some p := ⟨ps[i], List.getElem?_eq_getElem hips⟩
      by_cases hc : p.parent = some pivot ∧ p.moveToGround = false
      · rw [madLoopA_succ_move n d f pivot i ps p hi hp hc]
        set ps1 := ps.set i { p with y := p.y + d } with hps1
        have hlen1 : ps1.length = n := by
          rw [hps1, List.length_set]
          exact hlen
        have hag1 : ∀ m : Nat, ps1[m]?.map pieceKey = ps[m]?.map pieceKey := by
          intro m
          by_cases hm : i = m
          · subst hm
            rw [hps1, List.getElem?_set_self hips, hp]
            rfl
          · rw [hps1, List.getElem?_set_ne hm]
        set ps2 := madLoopA n d f i (i + 1) ps1 with hps2
        have hlen2 : ps2.length = n := by
          rw [hps2, madLoopA_length, hlen1]
        have IH1 : ∀ m : Nat, ps2[m]? = ps1[m]?.map
            (fun q => if isDescFrom ps1 i (i + 1) m then { q with y := q.y + d } else q) := by
          intro m
          rw [hps2]
          exact ih i (i + 1) ps1 hlen1 (by omega) (by omega) m
        have hag2 : ∀ m : Nat, ps2[m]?.map pieceKey = ps[m]?.map pieceKey := by
          intro m
          rw [IH1 m, ← hag1 m]
          cases ps1[m]? with
          | none => rfl
          | some q =>
            by_cases hq : isDescFrom ps1 i (i + 1) m = true
            · simp [hq, pieceKey]
            · simp [hq]
        have IH2 : ∀ m : Nat, (madLoopA n d f pivot (i + 1) ps2)[m]? = ps2[m]?.map
            (fun q => if isDescFrom ps2 pivot (i + 1) m then { q with y := q.y + d } else q) :=
          fun m => ih pivot (i + 1) ps2 hlen2 (by omega) (by omega) m
        rw [IH2 k, IH1 k]
        rw [show isDescFrom ps2 pivot (i + 1) k = isDescFrom ps pivot (i + 1) k from
          isDescFrom_congr ps2 ps pivot (i + 1) hag2 k]
        rw [show isDescFrom ps1 i (i + 1) k = isDescFrom ps i (i + 1) k from
          isDescFrom_congr ps1 ps i (i + 1) hag1 k]
        have hdec : isDescFrom ps pivot i k =
            (decide (k = i) || isDescFrom ps i (i + 1) k || isDescFrom ps pivot (i + 1) k) :=
          isDescFromA_decomp ps p pivot i hp hc.1 hc.2 hpi k k le_rfl
        by_cases hk : k = i
        · subst hk
          have hz2 : isDescFrom ps k (k + 1) k = false := by
            cases hb : isDescFrom ps k (k + 1) k
            · rfl
            · exact absurd (isDescFromA_le ps k (k + 1) k k hb) (by omega)
          have hz3 : isDescFrom ps pivot (k + 1) k = false := by
            cases hb : isDescFrom ps pivot (k + 1) k
            · rfl
            · exact absurd (isDescFromA_le ps pivot (k + 1) k k hb) (by omega)
          have htrue : isDescFrom ps pivot k k = true := by
            rw [hdec, hz2, hz3]
            simp
          have h1k : ps1[k]? = some { p with y := p.y + d } := by
            rw [hps1]
            exact List.getElem?_set_self hips
          rw [h1k, hp, htrue, hz2, hz3]
          simp
        · have h1k : ps1[k]? = ps[k]? := by
            rw [hps1]
            exact List.getElem?_set_ne (fun he => hk he.symm)
          rw [h1k, hdec]
          cases hkk : ps[k]? with
          | none => rfl
          | some q =>
            simp only [Option.map_some']
            by_cases hb2 : isDescFrom ps i (i + 1) k = true
            · have hb3 : isDescFrom ps pivot (i + 1) k = false := by
                cases hb : isDescFrom ps pivot (i + 1) k
                · rfl
                · exact absurd (isDescFromA_disjoint ps pivot i hpi k k k hb2 hb) id
              simp [hb2, hb3, hk]
            · by_cases hb3 : isDescFrom ps pivot (i + 1) k = true
              · simp [hb2, hb3, hk]
              · simp [hb2, hb3, hk]
      · rw [madLoopA_succ_skip n d f pivot i ps p hi hp hc]
        rw [ih pivot (i + 1) ps hlen (by omega) (by omega) k]
        rw [show isDescFrom ps pivot (i + 1) k = isDescFrom ps pivot i k from
          (isDescFromA_skip ps p pivot i hp hc k k).symm]
    · rw [madLoopA_ge n d (f + 1) pivot i ps hi]
      cases hk : ps[k]? with
      | none => rfl
      | some q =>
        have hkl : k < ps.length := (List.getElem?_eq_some_iff.mp hk).1
        have hfalse : isDescFrom ps pivot i k = false := by
          cases hb : isDescFrom ps pivot i k
          · rfl
          · exact absurd (isDescFromA_le ps pivot i k k hb) (by omega)
        simp [hfalse]

/-- The exact effect of `MoveAllDescendants`: each piece moves by `d`
precisely when its unique chain of parent links reaches the pivot through
non-ground-anchored pieces only. -/
theorem moveAllDescendants_spec (ps : List VPiece) (pivot : Nat) (d : Int) (k : Nat) :
    (moveAllDescendants ps pivot d)[k]? =
      ps[k]?.map (fun q =>
        if isDescFrom ps pivot (pivot + 1) k then { q with y := q.y + d } else q) :=
  madLoopA_spec ps.length d ps.length pivot (pivot + 1) ps rfl (by omega)
    (Nat.lt_succ_self pivot) k

/-! ## Claim C4 -/

/-- Claim C4: if the root placed piece is flagged ground-anchored, the
constructor adjusts its vertical position so its first connector sits one
block above the terrain surface queried at that connector's x/z position,
and every piece whose chain of parents back to the root consists only of
non-ground-anchored pieces is shifted by exactly the root's delta, while
a ground-anchored descendant and everything below it is left unmoved. -/
theorem village_ground_snap (heightAt : Int → Int → Int) (p0 : VPiece)
    (rest : List VPiece) (hflag : p0.moveToGround = true) :
    ((villagePieces heightAt (p0 :: rest))[0]?.map (fun q => q.y + q.connOffY)
        = some (heightAt (p0.x + p0.connOffX) (p0.z + p0.connOffZ) + 1)) ∧
    ∀ k : Nat, (villagePieces heightAt (p0 :: rest))[k]? =
      (p0 :: rest)[k]?.map (fun q =>
        if k = 0 ∨ isDescFrom (p0 :: rest) 0 1 k = true then
          { q with y := q.y + (heightAt (p0.x + p0.connOffX) (p0.z + p0.connOffZ) + 1
              - (p0.y + p0.connOffY)) }
        else q) := by
  have hvp : villagePieces heightAt (p0 :: rest) =
      moveAllDescendants (placePieceOnGround heightAt p0 :: rest) 0
        ((placePieceOnGround heightAt p0).y - p0.y) := by
    rw [villagePieces]
    rw [if_pos hflag]
  have hag : ∀ m : Nat, (placePieceOnGround heightAt p0 :: rest)[m]?.map pieceKey
      = (p0 :: rest)[m]?.map pieceKey := by
    intro m
    cases m with
    | zero =>
      simp only [List.getElem?_cons_zero, Option.map_some']
      rfl
    | succ m2 =>
      simp only [List.getElem?_cons_succ]
  have hdval : (placePieceOnGround heightAt p0).y - p0.y =
      heightAt (p0.x + p0.connOffX) (p0.z + p0.connOffZ) + 1 - (p0.y + p0.connOffY) := by
    rw [placePieceOnGround]
    ring
  have hrec0 : placePieceOnGround heightAt p0 =
      { p0 with y := p0.y + (heightAt (p0.x + p0.connOffX) (p0.z + p0.connOffZ) + 1
          - (p0.y + p0.connOffY)) } := by
    rw [placePieceOnGround]
    simp only [VPiece.mk.injEq, true_and, and_true]
    ring
  have hmain : ∀ k : Nat, (villagePieces heightAt (p0 :: rest))[k]? =
      (p0 :: rest)[k]?.map (fun q =>
        if k = 0 ∨ isDescFrom (p0 :: rest) 0 1 k = true then
          { q with y := q.y + (heightAt (p0.x + p0.connOffX) (p0.z + p0.connOffZ) + 1
              - (p0.y + p0.connOffY)) }
        else q) := by
    intro k
    rw [hvp, moveAllDescendants_spec]
    simp only [Nat.zero_add]
    rw [show isDescFrom (placePieceOnGround heightAt p0 :: rest) 0 1 k
        = isDescFrom (p0 :: rest) 0 1 k from
      isDescFrom_congr (placePieceOnGround heightAt p0 :: rest) (p0 :: rest) 0 1 hag k]
    rw [hdval]
    cases k with
    | zero =>
      have hz : isDescFrom (p0 :: rest) 0 1 0 = false := by
        cases hb : isDescFrom (p0 :: rest) 0 1 0
        · rfl
        · exact absurd (isDescFromA_le (p0 :: rest) 0 1 0 0 hb) (by omega)
      rw [hz]
      simp only [List.getElem?_cons_zero, Option.map_some']
      rw [hrec0]
      simp
    | succ k2 =>
      simp only [List.getElem?_cons_succ]
      cases rest[k2]? with
      | none => rfl
      | some q =>
        simp only [Option.map_some']
        by_cases hb : isDescFrom (p0 :: rest) 0 1 (k2 + 1) = true
        · simp [hb]
        · simp [hb]
  refine ⟨?_, hmain⟩
  rw [hmain 0]
  simp only [List.getElem?_cons_zero, Option.map_some', true_or, if_true]
  exact congrArg some (by ring)

/-- Witness for C4: with terrain height 70 and a root well at `y = 64`
(connector at its own position), the root moves to 71, its connector-only
child house moves with it, while a ground-anchored child and the piece
hanging under that child stay at 64. -/
theorem village_ground_snap_wit :
    (villagePieces ht4 (root4 :: [house4, anchored4, sub4]))[0]?.map VPiece.y = some 71 ∧
    (villagePieces ht4 (root4 :: [house4, anchored4, sub4]))[1]?.map VPiece.y = some 71 ∧
    (villagePieces ht4 (root4 :: [house4, anchored4, sub4]))[2]?.map VPiece.y = some 64 ∧
    (villagePieces ht4 (root4 :: [house4, anchored4, sub4]))[3]?.map VPiece.y = some 64 := by
  have h := village_ground_snap ht4 root4 [house4, anchored4, sub4] (by decide)
  refine ⟨?_, ?_, ?_, ?_⟩
  · rw [h.2 0]
    decide
  · rw [h.2 1]
    decide
  · rw [h.2 2]
    decide
  · rw [h.2 3]
    decide

/-- Witness for C10: a sample write stays inside the chunk, and a chunk
far away from the road receives no write. -/
theorem drawRoad_clipped_to_chunk_wit :
    (0 ≤ (3 : Int) ∧ (3 : Int) ≤ chunkWidth - 1 ∧ 0 ≤ (0 : Int) ∧
      (0 : Int) ≤ chunkWidth - 1) ∧
    drawRoadWrites 0 0 30 2 5 5 htFlat blockDemo isWaterDemo 13 5 = [] := by
  have h1 := drawRoad_clipped_to_chunk 0 0 30 2 0 0 htFlat blockDemo isWaterDemo 13 5
  have h2 := drawRoad_clipped_to_chunk 0 0 30 2 5 5 htFlat blockDemo isWaterDemo 13 5
  exact ⟨h1.1 ⟨3, 64, 0, 5⟩ (by decide), h2.2 (Or.inl (by decide))⟩

end VillageGen
